import Mathlib

/-!
Verification of the credit wallet / reservation subsystem of timrx-3d-print.

The first part embeds the client-side credit module
(workspace-credits.js and the credits helpers of api.js):
wallet state derivation from an /api/me response, the wallet update
helper, the action-cost lookup, the client credit gate, and the
402 error dispatcher.

The second part models the server-side reservation engine, ledger and
purchase intake.  The server code itself is not part of the repository
snapshot (only its SQL schema, clients and tests are), so those
operations are modelled from the specification, over the data model of
the SQL schema (timrx_billing.wallets, credit_reservations,
ledger_entries, purchases, action_costs).

The third part embeds the invoicing service (backend/services/
invoicing_service) control flow to verify its never-throw contract.
-/

/-! ## Client-side wallet state (workspace-credits.js) -/

/-- Wallet state held by the client credit module: creditsState.wallet. -/
structure ClientWallet where
  balance : Int
  reserved : Int
  available : Int
deriving DecidableEq

/-- The fields of a parsed /api/me JSON response that fetchWallet reads.
Option models absent (undefined/null) JSON fields; walletBalance etc.
are the nested data.wallet fallback fields. -/
structure MeResponse where
  ok : Bool
  balanceCredits : Option Int
  reservedCredits : Option Int
  availableCredits : Option Int
  walletBalance : Option Int
  walletReserved : Option Int
  walletAvailable : Option Int

/-- State computed by fetchWallet from the HTTP result flag and the
parsed body.  Mirrors workspace-credits.js: on a non-ok response or
ok:false body the wallet is zeroed; otherwise each field falls back
from the top-level field to the nested wallet field, and available
finally falls back to Math.max(0, balance - reserved). -/
def fetchWallet (resOk : Bool) (d : MeResponse) : ClientWallet :=
  if resOk = false then ⟨0, 0, 0⟩
  else if d.ok then
    let balance := d.balanceCredits.getD (d.walletBalance.getD 0)
    let reserved := d.reservedCredits.getD (d.walletReserved.getD 0)
    let available :=
      d.availableCredits.getD (d.walletAvailable.getD (max 0 (balance - reserved)))
    ⟨balance, reserved, available⟩
  else ⟨0, 0, 0⟩

/-- Wallet object passed to updateWallet; each field may be absent. -/
structure WalletPayload where
  balance : Option Int
  reserved : Option Int
  available : Option Int

/-- Mirrors updateWallet of workspace-credits.js: balance and reserved
default to 0, available falls back to Math.max(0, balance - reserved)
when the caller omits it. -/
def updateWallet (w : WalletPayload) : ClientWallet :=
  let b := w.balance.getD 0
  let r := w.reserved.getD 0
  ⟨b, r, w.available.getD (max 0 (b - r))⟩

/-! ## Client-side credit gate (workspace-credits.js and api.js) -/

/-- Loaded state of the client credit module that the gate consults. -/
structure CreditsModuleState where
  loaded : Bool
  available : Int
  actionCosts : List (String × Int)
deriving DecidableEq

/-- Mirrors getActionCost: creditsState.actionCosts[action] with
a JavaScript-falsy fallback to 0 for a missing entry. -/
def getActionCost (st : CreditsModuleState) (action : String) : Int :=
  (st.actionCosts.lookup action).getD 0

/-- Mirrors hasCreditsFor: creditsState.wallet.available >= cost. -/
def hasCreditsFor (st : CreditsModuleState) (action : String) : Bool :=
  decide (getActionCost st action ≤ st.available)

/-- Mirrors checkCreditsFor of api.js.  The Option models the presence
of window.WorkspaceCredits: none when the credits module is absent. -/
def checkCreditsFor (mod? : Option CreditsModuleState) (action : String) : Bool :=
  match mod? with
  | none => true
  | some st =>
    if st.loaded = false then true
    else if hasCreditsFor st action then true
    else false

/-- Mirrors handleApiError of api.js: handled (true) exactly on HTTP
status 402, every other status falls through to generic handling. -/
def handleApiError (status : Nat) : Bool :=
  if status = 402 then true else false

/-! ## Theorems about the client-side code -/

/-- C1 counterexample: updateWallet with balance 5, reserved 10 and no
server-provided available stores available = 0, which differs from
balance - reserved = -5; the fallback is Math.max(0, balance - reserved),
not balance - reserved. -/
theorem updateWallet_fallback_not_sub :
    (updateWallet ⟨some 5, some 10, none⟩).available = 0 ∧
    (updateWallet ⟨some 5, some 10, none⟩).available ≠
      (updateWallet ⟨some 5, some 10, none⟩).balance -
        (updateWallet ⟨some 5, some 10, none⟩).reserved := by
  constructor
  · rfl
  · decide

/-- C1 (amended): when the server omits available, both fetchWallet and
updateWallet compute available = max 0 (balance - reserved); hence the
fallback available is always nonnegative, and it equals
balance - reserved exactly on the states with reserved ≤ balance. -/
theorem wallet_fallback_available (d : MeResponse) (w : WalletPayload)
    (hok : d.ok = true)
    (h1 : d.availableCredits = none) (h2 : d.walletAvailable = none)
    (h3 : w.available = none) :
    ((fetchWallet true d).available =
        max 0 ((fetchWallet true d).balance - (fetchWallet true d).reserved) ∧
      0 ≤ (fetchWallet true d).available ∧
      ((fetchWallet true d).reserved ≤ (fetchWallet true d).balance →
        (fetchWallet true d).available =
          (fetchWallet true d).balance - (fetchWallet true d).reserved)) ∧
    ((updateWallet w).available =
        max 0 ((updateWallet w).balance - (updateWallet w).reserved) ∧
      0 ≤ (updateWallet w).available ∧
      ((updateWallet w).reserved ≤ (updateWallet w).balance →
        (updateWallet w).available =
          (updateWallet w).balance - (updateWallet w).reserved)) := by
  have hfw : fetchWallet true d =
      ⟨d.balanceCredits.getD (d.walletBalance.getD 0),
        d.reservedCredits.getD (d.walletReserved.getD 0),
        max 0 (d.balanceCredits.getD (d.walletBalance.getD 0) -
          d.reservedCredits.getD (d.walletReserved.getD 0))⟩ := by
    simp [fetchWallet, hok, h1, h2]
  have huw : updateWallet w =
      ⟨w.balance.getD 0, w.reserved.getD 0,
        max 0 (w.balance.getD 0 - w.reserved.getD 0)⟩ := by
    simp [updateWallet, h3]
  rw [hfw, huw]
  exact ⟨⟨rfl, le_max_left _ _, fun hle => max_eq_right (sub_nonneg.mpr hle)⟩,
    ⟨rfl, le_max_left _ _, fun hle => max_eq_right (sub_nonneg.mpr hle)⟩⟩

/-- Witness instantiating the amended C1 theorem at a concrete response
and payload. -/
theorem wallet_fallback_available_witness :
    (fetchWallet true ⟨true, some 7, some 3, none, none, none, none⟩).available =
      max 0 ((fetchWallet true ⟨true, some 7, some 3, none, none, none, none⟩).balance -
        (fetchWallet true ⟨true, some 7, some 3, none, none, none, none⟩).reserved) ∧
    0 ≤ (updateWallet ⟨some 7, some 3, none⟩).available := by
  have h := wallet_fallback_available
    ⟨true, some 7, some 3, none, none, none, none⟩ ⟨some 7, some 3, none⟩
    rfl rfl rfl rfl
  exact ⟨h.1.1, h.2.2.1⟩

/-- C8: handleApiError treats a response as the insufficient-credits
case exactly when its status is 402; every other status returns false
and falls through to generic error handling. -/
theorem handleApiError_iff_402 (status : Nat) :
    (handleApiError status = true ↔ status = 402) ∧
    (handleApiError status = false ↔ status ≠ 402) := by
  unfold handleApiError
  by_cases h : status = 402 <;> simp [h]

/-- C10 counterexample: with the module present and loaded, an empty
cost table (so the action has no entry and getActionCost returns 0) and
a negative loaded available, checkCreditsFor returns false, contradicting
the claim that a missing cost entry always lets the request proceed. -/
theorem checkCreditsFor_missing_entry_can_block :
    (([] : List (String × Int)).lookup "text-to-3d" = none) ∧
    getActionCost ⟨true, -1, []⟩ "text-to-3d" = 0 ∧
    checkCreditsFor (some ⟨true, -1, []⟩) "text-to-3d" = false := by
  refine ⟨rfl, rfl, ?_⟩
  decide

/-- C10 (amended): checkCreditsFor returns false exactly when the
credits module is present, loaded, and the loaded available is strictly
below the action cost (0 for a missing cost entry); in particular it
returns true when the module is absent, not loaded, or when the action
has no cost entry and the loaded available is nonnegative. -/
theorem checkCreditsFor_permissive (mod? : Option CreditsModuleState)
    (action : String) :
    (checkCreditsFor mod? action = false ↔
      ∃ st, mod? = some st ∧ st.loaded = true ∧
        st.available < getActionCost st action) ∧
    (∀ st, mod? = some st → st.actionCosts.lookup action = none →
      0 ≤ st.available → checkCreditsFor mod? action = true) := by
  constructor
  · constructor
    · intro hfalse
      match mod? with
      | none => simp [checkCreditsFor] at hfalse
      | some st =>
        refine ⟨st, rfl, ?_, ?_⟩
        · by_contra hload
          have : st.loaded = false := by
            cases h : st.loaded
            · rfl
            · exact absurd h hload
          simp [checkCreditsFor, this] at hfalse
        · by_contra hlt
          push_neg at hlt
          have hcred : hasCreditsFor st action = true := by
            simp [hasCreditsFor, hlt]
          rcases h : st.loaded with _ | _ <;>
            simp [checkCreditsFor, h, hcred] at hfalse
    · rintro ⟨st, rfl, hload, hlt⟩
      have hcred : hasCreditsFor st action = false := by
        simp [hasCreditsFor, not_le.mpr hlt]
      simp [checkCreditsFor, hload, hcred]
  · intro st hst hnone hnn
    subst hst
    have hcost : getActionCost st action = 0 := by
      simp [getActionCost, hnone]
    have hcred : hasCreditsFor st action = true := by
      simp [hasCreditsFor, hcost, hnn]
    rcases h : st.loaded with _ | _ <;>
      simp [checkCreditsFor, h, hcred]

/-- Witness instantiating the amended C10 theorem: with a loaded module
whose available is 5 and a 20-credit action, the gate blocks. -/
theorem checkCreditsFor_permissive_witness :
    checkCreditsFor (some ⟨true, 5, [("text-to-3d", 20)]⟩) "text-to-3d" = false := by
  have h := checkCreditsFor_permissive
    (some ⟨true, 5, [("text-to-3d", 20)]⟩) "text-to-3d"
  exact h.1.mpr ⟨⟨true, 5, [("text-to-3d", 20)]⟩, rfl, rfl, by decide⟩

/-! ## Server-side data model (SQL schema timrx_billing)

The reservation engine, purchase intake and grant endpoint run in the
backend server, which is not part of this repository snapshot; only
their SQL schema, their HTTP clients and their tests are.  The
operations below are therefore modelled from the specification (spec
sections 4.1 and 4.3), over the record shapes of the schema. -/

/-- Reservation status per the credit_reservations schema and the spec
state machine: held, captured, released, expired. -/
inductive ResStatus
  | held
  | captured
  | released
  | expired
deriving DecidableEq

/-- A wallet row of timrx_billing.wallets: balance_credits and
reserved_credits. -/
structure SrvWallet where
  balanceCredits : Int
  reservedCredits : Int
deriving DecidableEq

/-- A row of timrx_billing.credit_reservations (the billing-relevant
columns). -/
structure SrvReservation where
  identityId : Nat
  actionCode : String
  costCredits : Int
  status : ResStatus
  createdAt : Nat
  expiresAt : Nat
deriving DecidableEq

/-- A row of timrx_billing.purchases (the billing-relevant columns);
paid is true exactly when status is paid. -/
structure SrvPurchase where
  identityId : Nat
  provider : String
  providerPaymentId : String
  creditsGranted : Int
  paid : Bool
deriving DecidableEq

/-- A row of timrx_billing.ledger_entries. -/
structure SrvLedgerEntry where
  identityId : Nat
  entryType : String
  amountCredits : Int
deriving DecidableEq

/-- The billing store: wallets keyed by identity, reservations keyed by
reservation id, the purchases table and the append-only ledger, plus
the read-only action_costs table. -/
structure SrvState where
  wallets : Nat → SrvWallet
  reservations : List (Nat × SrvReservation)
  purchases : List SrvPurchase
  ledger : List SrvLedgerEntry
  actionCosts : String → Option Int

/-- Available credits of a wallet: balance_credits - reserved_credits. -/
def availableOf (w : SrvWallet) : Int :=
  w.balanceCredits - w.reservedCredits

/-- Pointwise wallet-map update at one identity. -/
def setWallet (ws : Nat → SrvWallet) (iden : Nat) (w : SrvWallet) : Nat → SrvWallet :=
  fun i => if i = iden then w else ws i

/-- Update the reservation stored under a given id. -/
def setReservation (rs : List (Nat × SrvReservation)) (rid : Nat)
    (r' : SrvReservation) : List (Nat × SrvReservation) :=
  rs.map (fun p => if p.1 = rid then (p.1, r') else p)

/-- Reservation TTL from the schema default of credit_reservations:
now() plus a 20 minute interval, in seconds. -/
def reservationTTLSeconds : Nat := 20 * 60

/-- A freshly inserted reservation row with the schema defaults:
status held and expires_at = created_at + 20 minutes. -/
def newHeldReservation (iden : Nat) (action : String) (cost : Int)
    (now : Nat) : SrvReservation :=
  { identityId := iden, actionCode := action, costCredits := cost,
    status := ResStatus.held, createdAt := now,
    expiresAt := now + reservationTTLSeconds }

/-- Outcome of the reserve operation. -/
inductive ReserveOut
  | ok (rid : Nat)
  | insufficientCredits (required available : Int)
  | unknownAction
  | idCollision
deriving DecidableEq

/-- Modelled from the spec: reserve(identity_id, action_code) of the
Reservation Engine (backend server code absent from the snapshot).
Looks up the cost in action_costs, checks available >= cost, and on
success increments wallet.reserved and inserts a held reservation with
expires_at = now + TTL; otherwise fails with
InsufficientCredits(required, available) and changes nothing.  The
fresh reservation id is a parameter; a collision with an existing id is
a no-op (ids are random UUIDs in the schema). -/
def reserve (s : SrvState) (iden : Nat) (action : String) (now rid : Nat) :
    SrvState × ReserveOut :=
  match s.actionCosts action with
  | none => (s, ReserveOut.unknownAction)
  | some cost =>
    match s.reservations.lookup rid with
    | some _ => (s, ReserveOut.idCollision)
    | none =>
      if availableOf (s.wallets iden) < cost then
        (s, ReserveOut.insufficientCredits cost (availableOf (s.wallets iden)))
      else
        ({ s with
            wallets := setWallet s.wallets iden
              ⟨(s.wallets iden).balanceCredits,
                (s.wallets iden).reservedCredits + cost⟩,
            reservations :=
              s.reservations ++ [(rid, newHeldReservation iden action cost now)] },
          ReserveOut.ok rid)

/-- Modelled from the spec: capture(reservation_id) of the Reservation
Engine.  Only legal from held: debits balance and reserved by the
reservation cost, marks the reservation captured and appends a debit
ledger entry.  On an already-captured reservation it is a no-op
returning the current wallet; otherwise (missing or released/expired)
it mutates nothing. -/
def capture (s : SrvState) (rid : Nat) : SrvState × Option SrvWallet :=
  match s.reservations.lookup rid with
  | none => (s, none)
  | some r =>
    match r.status with
    | ResStatus.held =>
      ({ s with
          wallets := setWallet s.wallets r.identityId
            ⟨(s.wallets r.identityId).balanceCredits - r.costCredits,
              (s.wallets r.identityId).reservedCredits - r.costCredits⟩,
          reservations :=
            setReservation s.reservations rid { r with status := ResStatus.captured },
          ledger := s.ledger ++
            [⟨r.identityId, "reservation_capture", -r.costCredits⟩] },
        some ⟨(s.wallets r.identityId).balanceCredits - r.costCredits,
          (s.wallets r.identityId).reservedCredits - r.costCredits⟩)
    | ResStatus.captured => (s, some (s.wallets r.identityId))
    | _ => (s, none)

/-- Modelled from the spec: release(reservation_id) of the Reservation
Engine.  Only legal from held: returns the hold (reserved -= cost,
balance untouched), marks the reservation released and appends a
zero-net ledger entry.  On an already-released reservation it is a
no-op returning the current wallet. -/
def release (s : SrvState) (rid : Nat) : SrvState × Option SrvWallet :=
  match s.reservations.lookup rid with
  | none => (s, none)
  | some r =>
    match r.status with
    | ResStatus.held =>
      ({ s with
          wallets := setWallet s.wallets r.identityId
            ⟨(s.wallets r.identityId).balanceCredits,
              (s.wallets r.identityId).reservedCredits - r.costCredits⟩,
          reservations :=
            setReservation s.reservations rid { r with status := ResStatus.released },
          ledger := s.ledger ++ [⟨r.identityId, "reservation_release", 0⟩] },
        some ⟨(s.wallets r.identityId).balanceCredits,
          (s.wallets r.identityId).reservedCredits - r.costCredits⟩)
    | ResStatus.released => (s, some (s.wallets r.identityId))
    | _ => (s, none)

/-- Modelled from the spec: the per-row step of sweep_expired.  A held
reservation past its expires_at is released exactly as release does,
but transitions to expired. -/
def expireOne (now : Nat) (s : SrvState) (rid : Nat) : SrvState :=
  match s.reservations.lookup rid with
  | none => s
  | some r =>
    if r.status = ResStatus.held ∧ r.expiresAt < now then
      { s with
          wallets := setWallet s.wallets r.identityId
            ⟨(s.wallets r.identityId).balanceCredits,
              (s.wallets r.identityId).reservedCredits - r.costCredits⟩,
          reservations :=
            setReservation s.reservations rid { r with status := ResStatus.expired },
          ledger := s.ledger ++ [⟨r.identityId, "reservation_expired", 0⟩] }
    else s

/-- Modelled from the spec: sweep_expired(now), releasing every held
reservation whose expires_at is before now, as expired. -/
def sweepExpired (s : SrvState) (now : Nat) : SrvState :=
  (s.reservations.map Prod.fst).foldl (expireOne now) s

/-- Modelled from the spec: an administrative credit grant (the grant
entry type of the ledger; exercised by the admin grant endpoint in the
manual test script).  Credits the balance and appends a ledger entry. -/
def grant (s : SrvState) (iden : Nat) (amount : Int) : SrvState :=
  { s with
      wallets := setWallet s.wallets iden
        ⟨(s.wallets iden).balanceCredits + amount, (s.wallets iden).reservedCredits⟩,
      ledger := s.ledger ++ [⟨iden, "grant", amount⟩] }

/-- Key predicate of the unique index uq_purchases_provider_payment. -/
def purchaseKeyMatch (prov ppid : String) (p : SrvPurchase) : Bool :=
  p.provider == prov && p.providerPaymentId == ppid

/-- Purchase lookup by the unique (provider, provider_payment_id) key. -/
def findPurchase (ps : List SrvPurchase) (prov ppid : String) : Option SrvPurchase :=
  ps.find? (purchaseKeyMatch prov ppid)

/-- Mark the purchase under the given key as paid. -/
def markPaid (ps : List SrvPurchase) (prov ppid : String) : List SrvPurchase :=
  ps.map (fun p => if purchaseKeyMatch prov ppid p then { p with paid := true } else p)

/-- Outcome of finalize. -/
inductive FinalizeOut
  | paid (identityId : Nat) (credits : Int)
  | alreadyProcessed
  | notFound
deriving DecidableEq

/-- Modelled from the spec: finalize(provider, provider_payment_id) of
Purchase Intake.  Looks the purchase up by its unique key; if already
paid, returns AlreadyProcessed with no mutation; otherwise marks it
paid, credits the wallet balance by the purchased credits and appends a
credit ledger entry, atomically. -/
def finalize (s : SrvState) (prov ppid : String) : SrvState × FinalizeOut :=
  match findPurchase s.purchases prov ppid with
  | none => (s, FinalizeOut.notFound)
  | some p =>
    if p.paid then (s, FinalizeOut.alreadyProcessed)
    else
      ({ s with
          purchases := markPaid s.purchases prov ppid,
          wallets := setWallet s.wallets p.identityId
            ⟨(s.wallets p.identityId).balanceCredits + p.creditsGranted,
              (s.wallets p.identityId).reservedCredits⟩,
          ledger := s.ledger ++ [⟨p.identityId, "purchase", p.creditsGranted⟩] },
        FinalizeOut.paid p.identityId p.creditsGranted)

/-- The balance-affecting operations of the billing core. -/
inductive Op
  | grantOp (iden : Nat) (amount : Int)
  | reserveOp (iden : Nat) (action : String) (now rid : Nat)
  | captureOp (rid : Nat)
  | releaseOp (rid : Nat)
  | finalizeOp (prov ppid : String)
  | sweepOp (now : Nat)

/-- Apply one operation to the store, keeping only the resulting state. -/
def applyOp (s : SrvState) : Op → SrvState
  | Op.grantOp i a => grant s i a
  | Op.reserveOp i ac now rid => (reserve s i ac now rid).1
  | Op.captureOp rid => (capture s rid).1
  | Op.releaseOp rid => (release s rid).1
  | Op.finalizeOp p pp => (finalize s p pp).1
  | Op.sweepOp now => sweepExpired s now

/-- Run a sequence of operations. -/
def runOps (s : SrvState) (ops : List Op) : SrvState :=
  ops.foldl applyOp s

/-- Sum of ledger amounts attributed to one identity. -/
def ledgerSum (iden : Nat) (l : List SrvLedgerEntry) : Int :=
  (l.map (fun e => if e.identityId = iden then e.amountCredits else 0)).sum

/-- The ledger invariant: every balance is the sum of that identity's
ledger entries. -/
def balanceMatchesLedger (s : SrvState) : Prop :=
  ∀ iden, (s.wallets iden).balanceCredits = ledgerSum iden s.ledger

/-- An empty initial store: zero wallets, no rows. -/
def initState : SrvState :=
  { wallets := fun _ => ⟨0, 0⟩, reservations := [], purchases := [],
    ledger := [], actionCosts := fun _ => none }

/-! ## Association-list lemmas -/

/-- Lookup in an appended list, found on the left. -/
theorem lookup_append_left {α β : Type} [BEq α] {l₁ : List (α × β)}
    (l₂ : List (α × β)) {x : α} {b : β} (h : l₁.lookup x = some b) :
    (l₁ ++ l₂).lookup x = some b := by
  induction l₁ with
  | nil => simp at h
  | cons p t ih =>
    obtain ⟨k, v⟩ := p
    rw [List.lookup_cons] at h
    rw [List.cons_append, List.lookup_cons]
    cases hxk : x == k with
    | true => rw [hxk] at h; simpa using h
    | false => rw [hxk] at h; exact ih h

/-- Lookup in an appended list, falling through to the right. -/
theorem lookup_append_right {α β : Type} [BEq α] {l₁ : List (α × β)}
    (l₂ : List (α × β)) {x : α} (h : l₁.lookup x = none) :
    (l₁ ++ l₂).lookup x = l₂.lookup x := by
  induction l₁ with
  | nil => simp
  | cons p t ih =>
    obtain ⟨k, v⟩ := p
    rw [List.lookup_cons] at h
    rw [List.cons_append, List.lookup_cons]
    cases hxk : x == k with
    | true => rw [hxk] at h; simp at h
    | false => rw [hxk] at h; exact ih h

/-- setReservation rewrites the value stored under the updated id. -/
theorem lookup_setReservation_self (rs : List (Nat × SrvReservation))
    (rid : Nat) (r' : SrvReservation) :
    (setReservation rs rid r').lookup rid = (rs.lookup rid).map (fun _ => r') := by
  induction rs with
  | nil => simp [setReservation]
  | cons p t ih =>
    obtain ⟨k, v⟩ := p
    simp only [setReservation, List.map_cons]
    by_cases hk : k = rid
    · subst hk
      have hbeq : (k == k) = true := by simp
      rw [if_pos rfl, List.lookup_cons, List.lookup_cons, hbeq]
      rfl
    · have hbeq : (rid == k) = false := by
        simp only [beq_eq_false_iff_ne, ne_eq]
        exact fun h => hk h.symm
      rw [if_neg hk, List.lookup_cons, List.lookup_cons, hbeq]
      exact ih

/-- setReservation leaves every other id unchanged. -/
theorem lookup_setReservation_other (rs : List (Nat × SrvReservation))
    (rid x : Nat) (r' : SrvReservation) (hx : x ≠ rid) :
    (setReservation rs rid r').lookup x = rs.lookup x := by
  induction rs with
  | nil => simp [setReservation]
  | cons p t ih =>
    obtain ⟨k, v⟩ := p
    simp only [setReservation, List.map_cons]
    by_cases hk : k = rid
    · subst hk
      have hbeq : (x == k) = false := by simpa using hx
      rw [if_pos rfl, List.lookup_cons, List.lookup_cons, hbeq]
      exact ih
    · rw [if_neg hk, List.lookup_cons, List.lookup_cons]
      cases hxk : x == k with
      | true => rfl
      | false => exact ih

/-! ## Ledger lemmas -/

/-- Appending one ledger entry adds its (possibly zero) contribution. -/
theorem ledgerSum_append (iden : Nat) (l : List SrvLedgerEntry)
    (e : SrvLedgerEntry) :
    ledgerSum iden (l ++ [e]) =
      ledgerSum iden l + (if e.identityId = iden then e.amountCredits else 0) := by
  simp [ledgerSum]

/-- The balance/ledger invariant survives crediting identity j by d
while appending a matching ledger entry, whatever happens to the other
tables. -/
theorem balanceMatchesLedger_shift (s : SrvState) (h : balanceMatchesLedger s)
    (j : Nat) (w' : SrvWallet) (d : Int)
    (hw : w'.balanceCredits = (s.wallets j).balanceCredits + d)
    (etype : String) (rs : List (Nat × SrvReservation)) (ps : List SrvPurchase) :
    balanceMatchesLedger
      { wallets := setWallet s.wallets j w', reservations := rs,
        purchases := ps, ledger := s.ledger ++ [⟨j, etype, d⟩],
        actionCosts := s.actionCosts } := by
  intro i
  show (setWallet s.wallets j w' i).balanceCredits =
    ledgerSum i (s.ledger ++ [⟨j, etype, d⟩])
  rw [ledgerSum_append]
  by_cases hij : i = j
  · subst hij
    simp [setWallet, hw, h i]
  · have hji : ¬ j = i := fun hc => hij hc.symm
    simp [setWallet, hij, hji, h i]

/-- The balance/ledger invariant survives a wallet update that keeps
the balance, with an unchanged ledger. -/
theorem balanceMatchesLedger_keep (s : SrvState) (h : balanceMatchesLedger s)
    (j : Nat) (w' : SrvWallet)
    (hw : w'.balanceCredits = (s.wallets j).balanceCredits)
    (rs : List (Nat × SrvReservation)) (ps : List SrvPurchase) :
    balanceMatchesLedger
      { wallets := setWallet s.wallets j w', reservations := rs,
        purchases := ps, ledger := s.ledger,
        actionCosts := s.actionCosts } := by
  intro i
  show (setWallet s.wallets j w' i).balanceCredits = ledgerSum i s.ledger
  by_cases hij : i = j
  · subst hij
    simp [setWallet, hw, h i]
  · simp [setWallet, hij, h i]

/-! ## Generic fold preservation -/

/-- A property preserved by every step is preserved by a fold. -/
theorem foldl_preserve {σ α : Type} (P : σ → Prop) (f : σ → α → σ)
    (hf : ∀ s a, P s → P (f s a)) :
    ∀ (l : List α) (s : σ), P s → P (l.foldl f s) := by
  intro l
  induction l with
  | nil => intro s hs; exact hs
  | cons a t ih => intro s hs; exact ih (f s a) (hf s a hs)

/-- A reflexive transitive relation that every step respects is
respected by a fold. -/
theorem foldl_rel {σ α : Type} (R : σ → σ → Prop) (hrefl : ∀ s, R s s)
    (htrans : ∀ a b c, R a b → R b c → R a c) (f : σ → α → σ)
    (hf : ∀ s a, R s (f s a)) :
    ∀ (l : List α) (s : σ), R s (l.foldl f s) := by
  intro l
  induction l with
  | nil => intro s; exact hrefl s
  | cons a t ih => intro s; exact htrans _ _ _ (hf s a) (ih (f s a))

/-! ## Invariant preservation per operation -/

/-- grant preserves the balance/ledger invariant. -/
theorem grant_balanceInv (s : SrvState) (iden : Nat) (amount : Int)
    (h : balanceMatchesLedger s) : balanceMatchesLedger (grant s iden amount) :=
  balanceMatchesLedger_shift s h iden _ amount rfl "grant"
    s.reservations s.purchases

/-- reserve preserves the balance/ledger invariant. -/
theorem reserve_balanceInv (s : SrvState) (iden : Nat) (action : String)
    (now rid : Nat) (h : balanceMatchesLedger s) :
    balanceMatchesLedger (reserve s iden action now rid).1 := by
  unfold reserve
  split
  · exact h
  · split
    · exact h
    · split
      · exact h
      · refine balanceMatchesLedger_keep s h iden _ ?_ _ _
        exact rfl

/-- capture preserves the balance/ledger invariant. -/
theorem capture_balanceInv (s : SrvState) (rid : Nat)
    (h : balanceMatchesLedger s) : balanceMatchesLedger (capture s rid).1 := by
  unfold capture
  split
  · exact h
  · split
    · refine balanceMatchesLedger_shift s h _ _ _ ?_ _ _ _
      exact sub_eq_add_neg _ _
    · exact h
    · exact h

/-- release preserves the balance/ledger invariant. -/
theorem release_balanceInv (s : SrvState) (rid : Nat)
    (h : balanceMatchesLedger s) : balanceMatchesLedger (release s rid).1 := by
  unfold release
  split
  · exact h
  · split
    · refine balanceMatchesLedger_shift s h _ _ _ ?_ _ _ _
      exact (add_zero _).symm
    · exact h
    · exact h

/-- expireOne preserves the balance/ledger invariant. -/
theorem expireOne_balanceInv (now : Nat) (s : SrvState) (rid : Nat)
    (h : balanceMatchesLedger s) : balanceMatchesLedger (expireOne now s rid) := by
  unfold expireOne
  split
  · exact h
  · split
    · refine balanceMatchesLedger_shift s h _ _ _ ?_ _ _ _
      exact (add_zero _).symm
    · exact h

/-- sweepExpired preserves the balance/ledger invariant. -/
theorem sweepExpired_balanceInv (s : SrvState) (now : Nat)
    (h : balanceMatchesLedger s) : balanceMatchesLedger (sweepExpired s now) :=
  foldl_preserve balanceMatchesLedger (expireOne now)
    (fun st rid hst => expireOne_balanceInv now st rid hst)
    (s.reservations.map Prod.fst) s h

/-- finalize preserves the balance/ledger invariant. -/
theorem finalize_balanceInv (s : SrvState) (prov ppid : String)
    (h : balanceMatchesLedger s) : balanceMatchesLedger (finalize s prov ppid).1 := by
  unfold finalize
  split
  · exact h
  · split
    · exact h
    · refine balanceMatchesLedger_shift s h _ _ _ ?_ _ _ _
      exact rfl

/-- Every operation preserves the balance/ledger invariant. -/
theorem applyOp_balanceInv (s : SrvState) (op : Op)
    (h : balanceMatchesLedger s) : balanceMatchesLedger (applyOp s op) := by
  cases op with
  | grantOp i a => exact grant_balanceInv s i a h
  | reserveOp i ac now rid => exact reserve_balanceInv s i ac now rid h
  | captureOp rid => exact capture_balanceInv s rid h
  | releaseOp rid => exact release_balanceInv s rid h
  | finalizeOp p pp => exact finalize_balanceInv s p pp h
  | sweepOp now => exact sweepExpired_balanceInv s now h

/-! ## Ledger append-only -/

/-- The ledger of the second state extends the ledger of the first by a
suffix: no entry is updated or deleted. -/
def ledgerExtends (s s' : SrvState) : Prop :=
  ∃ t, s'.ledger = s.ledger ++ t

theorem ledgerExtends_refl (s : SrvState) : ledgerExtends s s :=
  ⟨[], (List.append_nil _).symm⟩

theorem ledgerExtends_trans (a b c : SrvState)
    (h1 : ledgerExtends a b) (h2 : ledgerExtends b c) : ledgerExtends a c := by
  obtain ⟨t1, h1⟩ := h1
  obtain ⟨t2, h2⟩ := h2
  exact ⟨t1 ++ t2, by rw [h2, h1, List.append_assoc]⟩

/-- expireOne only ever appends to the ledger. -/
theorem expireOne_ledgerExtends (now : Nat) (s : SrvState) (rid : Nat) :
    ledgerExtends s (expireOne now s rid) := by
  unfold expireOne
  split
  · exact ledgerExtends_refl s
  · split
    · exact ⟨[⟨_, "reservation_expired", 0⟩], rfl⟩
    · exact ledgerExtends_refl s

/-- Every operation only ever appends to the ledger. -/
theorem applyOp_ledgerExtends (s : SrvState) (op : Op) :
    ledgerExtends s (applyOp s op) := by
  cases op with
  | grantOp i a => exact ⟨[⟨i, "grant", a⟩], rfl⟩
  | reserveOp i ac now rid =>
    show ledgerExtends s (reserve s i ac now rid).1
    unfold reserve
    split
    · exact ledgerExtends_refl s
    · split
      · exact ledgerExtends_refl s
      · split
        · exact ledgerExtends_refl s
        · exact ⟨[], (List.append_nil _).symm⟩
  | captureOp rid =>
    show ledgerExtends s (capture s rid).1
    unfold capture
    split
    · exact ledgerExtends_refl s
    · split
      · exact ⟨[⟨_, "reservation_capture", _⟩], rfl⟩
      · exact ledgerExtends_refl s
      · exact ledgerExtends_refl s
  | releaseOp rid =>
    show ledgerExtends s (release s rid).1
    unfold release
    split
    · exact ledgerExtends_refl s
    · split
      · exact ⟨[⟨_, "reservation_release", 0⟩], rfl⟩
      · exact ledgerExtends_refl s
      · exact ledgerExtends_refl s
  | finalizeOp p pp =>
    show ledgerExtends s (finalize s p pp).1
    unfold finalize
    split
    · exact ledgerExtends_refl s
    · split
      · exact ledgerExtends_refl s
      · exact ⟨[⟨_, "purchase", _⟩], rfl⟩
  | sweepOp now =>
    exact foldl_rel ledgerExtends ledgerExtends_refl ledgerExtends_trans
      (expireOne now) (fun st rid => expireOne_ledgerExtends now st rid)
      (s.reservations.map Prod.fst) s

/-- C2: after any sequence of balance-affecting operations from a state
satisfying the ledger invariant (in particular from the empty initial
store), every balance equals the sum of that identity's ledger entries,
and the ledger has only grown by appended entries: nothing is updated
or deleted. -/
theorem balance_eq_ledger_sum (s0 : SrvState) (ops : List Op)
    (h : balanceMatchesLedger s0) :
    balanceMatchesLedger (runOps s0 ops) ∧
      ∃ t, (runOps s0 ops).ledger = s0.ledger ++ t := by
  constructor
  · exact foldl_preserve balanceMatchesLedger applyOp
      (fun s op hs => applyOp_balanceInv s op hs) ops s0 h
  · exact foldl_rel ledgerExtends ledgerExtends_refl ledgerExtends_trans
      applyOp (fun s op => applyOp_ledgerExtends s op) ops s0

/-- Witness instantiating C2 from the empty store on a grant, a
purchase finalization and a full reserve/capture cycle. -/
theorem balance_eq_ledger_sum_witness :
    balanceMatchesLedger (runOps initState
      [Op.grantOp 0 100, Op.reserveOp 0 "MESHY_TEXT_TO_3D" 0 1, Op.captureOp 1]) ∧
      ∃ t, (runOps initState
        [Op.grantOp 0 100, Op.reserveOp 0 "MESHY_TEXT_TO_3D" 0 1, Op.captureOp 1]).ledger =
          initState.ledger ++ t :=
  balance_eq_ledger_sum initState
    [Op.grantOp 0 100, Op.reserveOp 0 "MESHY_TEXT_TO_3D" 0 1, Op.captureOp 1]
    (fun _ => rfl)

/-! ## Idempotence of capture and release -/

/-- After a capture from held, the reservation is stored as captured. -/
theorem capture_lookup_of_held (s : SrvState) (rid : Nat) (r : SrvReservation)
    (hr : s.reservations.lookup rid = some r) (hst : r.status = ResStatus.held) :
    (capture s rid).1.reservations.lookup rid =
      some { r with status := ResStatus.captured } := by
  simp only [capture, hr, hst]
  rw [lookup_setReservation_self, hr]
  rfl

/-- After a release from held, the reservation is stored as released. -/
theorem release_lookup_of_held (s : SrvState) (rid : Nat) (r : SrvReservation)
    (hr : s.reservations.lookup rid = some r) (hst : r.status = ResStatus.held) :
    (release s rid).1.reservations.lookup rid =
      some { r with status := ResStatus.released } := by
  simp only [release, hr, hst]
  rw [lookup_setReservation_self, hr]
  rfl

/-- capture on an already-captured reservation is a no-op returning
the current wallet. -/
theorem capture_noop_captured (s : SrvState) (rid : Nat) (r : SrvReservation)
    (hr : s.reservations.lookup rid = some r)
    (hst : r.status = ResStatus.captured) :
    capture s rid = (s, some (s.wallets r.identityId)) := by
  simp [capture, hr, hst]

/-- release on an already-released reservation is a no-op returning
the current wallet. -/
theorem release_noop_released (s : SrvState) (rid : Nat) (r : SrvReservation)
    (hr : s.reservations.lookup rid = some r)
    (hst : r.status = ResStatus.released) :
    release s rid = (s, some (s.wallets r.identityId)) := by
  simp [release, hr, hst]

/-- The state after two captures equals the state after one. -/
theorem capture_idem (s : SrvState) (rid : Nat) :
    (capture (capture s rid).1 rid).1 = (capture s rid).1 := by
  cases hr : s.reservations.lookup rid with
  | none =>
    have h1 : (capture s rid).1 = s := by simp [capture, hr]
    rw [h1]
    exact h1
  | some r =>
    cases hst : r.status with
    | held =>
      have h2 := capture_lookup_of_held s rid r hr hst
      set s1 := (capture s rid).1 with hs1
      simp [capture, h2]
    | captured =>
      have h1 : (capture s rid).1 = s := by simp [capture, hr, hst]
      rw [h1]
      exact h1
    | released =>
      have h1 : (capture s rid).1 = s := by simp [capture, hr, hst]
      rw [h1]
      exact h1
    | expired =>
      have h1 : (capture s rid).1 = s := by simp [capture, hr, hst]
      rw [h1]
      exact h1

/-- The state after two releases equals the state after one. -/
theorem release_idem (s : SrvState) (rid : Nat) :
    (release (release s rid).1 rid).1 = (release s rid).1 := by
  cases hr : s.reservations.lookup rid with
  | none =>
    have h1 : (release s rid).1 = s := by simp [release, hr]
    rw [h1]
    exact h1
  | some r =>
    cases hst : r.status with
    | held =>
      have h2 := release_lookup_of_held s rid r hr hst
      set s1 := (release s rid).1 with hs1
      simp [release, h2]
    | captured =>
      have h1 : (release s rid).1 = s := by simp [release, hr, hst]
      rw [h1]
      exact h1
    | released =>
      have h1 : (release s rid).1 = s := by simp [release, hr, hst]
      rw [h1]
      exact h1
    | expired =>
      have h1 : (release s rid).1 = s := by simp [release, hr, hst]
      rw [h1]
      exact h1

/-- C3: capture and release are idempotent: for every reservation id,
the wallet state after two calls is identical to the state after one,
and a second capture (release) of an already captured (released)
reservation is a no-op returning the current wallet. -/
theorem capture_release_idempotent (s : SrvState) (rid : Nat) :
    (capture (capture s rid).1 rid).1 = (capture s rid).1 ∧
    (release (release s rid).1 rid).1 = (release s rid).1 ∧
    (∀ r, s.reservations.lookup rid = some r → r.status = ResStatus.captured →
      capture s rid = (s, some (s.wallets r.identityId))) ∧
    (∀ r, s.reservations.lookup rid = some r → r.status = ResStatus.released →
      release s rid = (s, some (s.wallets r.identityId))) :=
  ⟨capture_idem s rid, release_idem s rid,
    fun r hr hst => capture_noop_captured s rid r hr hst,
    fun r hr hst => release_noop_released s rid r hr hst⟩

/-- A store with one already-captured reservation, for witnesses. -/
def demoCaptured : SrvReservation :=
  { identityId := 0, actionCode := "MESHY_TEXT_TO_3D", costCredits := 20,
    status := ResStatus.captured, createdAt := 0, expiresAt := 1200 }

/-- Demo store holding demoCaptured under id 1. -/
def demoState1 : SrvState :=
  { wallets := fun _ => ⟨80, 0⟩, reservations := [(1, demoCaptured)],
    purchases := [], ledger := [], actionCosts := fun _ => some 20 }

/-- Witness instantiating C3: a second capture of the captured
reservation of demoState1 is a no-op returning the current wallet. -/
theorem capture_release_idempotent_witness :
    capture demoState1 1 = (demoState1, some (demoState1.wallets 0)) :=
  (capture_release_idempotent demoState1 1).2.2.1 demoCaptured rfl rfl

/-! ## Idempotence of finalize -/

/-- markPaid keeps the purchase findable under the same key, now paid. -/
theorem findPurchase_markPaid (ps : List SrvPurchase) (prov ppid : String)
    (p : SrvPurchase) (h : findPurchase ps prov ppid = some p) :
    findPurchase (markPaid ps prov ppid) prov ppid =
      some { p with paid := true } := by
  induction ps with
  | nil => simp [findPurchase] at h
  | cons q t ih =>
    by_cases hq : purchaseKeyMatch prov ppid q = true
    · unfold findPurchase at h
      rw [List.find?_cons_of_pos _ hq] at h
      injection h with hqp
      subst hqp
      unfold markPaid findPurchase
      rw [List.map_cons, if_pos hq]
      exact List.find?_cons_of_pos _ hq
    · have hq' : ¬ (purchaseKeyMatch prov ppid q = true) := hq
      unfold findPurchase at h
      rw [List.find?_cons_of_neg _ hq'] at h
      unfold markPaid findPurchase
      rw [List.map_cons, if_neg hq', List.find?_cons_of_neg _ hq']
      exact ih h

/-- C4: finalize is idempotent on the unique purchase key.  If the
purchase is already paid, finalize returns AlreadyProcessed and mutates
nothing; if it is pending, finalize credits the wallet by the purchased
credits, and a second call with the same key returns AlreadyProcessed
and leaves the state unchanged, so the wallet is credited exactly
once. -/
theorem finalize_idempotent (s : SrvState) (prov ppid : String) :
    (∀ p, findPurchase s.purchases prov ppid = some p → p.paid = true →
      finalize s prov ppid = (s, FinalizeOut.alreadyProcessed)) ∧
    (∀ p, findPurchase s.purchases prov ppid = some p → p.paid = false →
      ((finalize s prov ppid).1.wallets p.identityId).balanceCredits =
        (s.wallets p.identityId).balanceCredits + p.creditsGranted ∧
      finalize (finalize s prov ppid).1 prov ppid =
        ((finalize s prov ppid).1, FinalizeOut.alreadyProcessed)) := by
  constructor
  · intro p hp hpaid
    simp [finalize, hp, hpaid]
  · intro p hp hpaid
    have h1 : (finalize s prov ppid).1 =
        { s with
            purchases := markPaid s.purchases prov ppid,
            wallets := setWallet s.wallets p.identityId
              ⟨(s.wallets p.identityId).balanceCredits + p.creditsGranted,
                (s.wallets p.identityId).reservedCredits⟩,
            ledger := s.ledger ++ [⟨p.identityId, "purchase", p.creditsGranted⟩] } := by
      simp [finalize, hp, hpaid]
    constructor
    · rw [h1]
      simp [setWallet]
    · have h2 : findPurchase (markPaid s.purchases prov ppid) prov ppid =
          some { p with paid := true } :=
        findPurchase_markPaid s.purchases prov ppid p hp
      rw [h1]
      simp [finalize, h2]

/-- A pending stripe purchase of 300 credits, for witnesses. -/
def demoPurchase : SrvPurchase :=
  { identityId := 0, provider := "stripe", providerPaymentId := "pi_123",
    creditsGranted := 300, paid := false }

/-- Demo store holding the pending demoPurchase. -/
def demoState2 : SrvState :=
  { wallets := fun _ => ⟨0, 0⟩, reservations := [], purchases := [demoPurchase],
    ledger := [], actionCosts := fun _ => none }

/-- Witness instantiating C4: finalizing pi_123 twice credits 300
exactly once and the second call returns AlreadyProcessed. -/
theorem finalize_idempotent_witness :
    ((finalize demoState2 "stripe" "pi_123").1.wallets 0).balanceCredits =
      (demoState2.wallets 0).balanceCredits + 300 ∧
    finalize (finalize demoState2 "stripe" "pi_123").1 "stripe" "pi_123" =
      ((finalize demoState2 "stripe" "pi_123").1, FinalizeOut.alreadyProcessed) :=
  (finalize_idempotent demoState2 "stripe" "pi_123").2 demoPurchase (by decide) rfl

/-! ## reserve and insufficient credits -/

/-- C5: for a known action cost and a fresh reservation id, reserve
fails with InsufficientCredits carrying the required cost and the
current available amount, leaving the whole state unchanged, exactly
when available < cost; it succeeds exactly when cost ≤ available. -/
theorem reserve_insufficient (s : SrvState) (iden : Nat) (action : String)
    (now rid : Nat) (cost : Int)
    (hc : s.actionCosts action = some cost)
    (hfresh : s.reservations.lookup rid = none) :
    (availableOf (s.wallets iden) < cost →
      reserve s iden action now rid =
        (s, ReserveOut.insufficientCredits cost (availableOf (s.wallets iden)))) ∧
    ((reserve s iden action now rid).2 = ReserveOut.ok rid ↔
      cost ≤ availableOf (s.wallets iden)) := by
  constructor
  · intro hlt
    simp [reserve, hc, hfresh, hlt]
  · by_cases hlt : availableOf (s.wallets iden) < cost
    · simp only [reserve, hc, hfresh]
      rw [if_pos hlt]
      simp
      exact hlt
    · simp only [reserve, hc, hfresh]
      rw [if_neg hlt]
      simp
      exact not_lt.mp hlt

/-- Demo store with a 50-credit wallet and a 60-credit action cost
table, the insufficient-credits scenario of the spec. -/
def demoState3 : SrvState :=
  { wallets := fun _ => ⟨50, 0⟩, reservations := [], purchases := [],
    ledger := [], actionCosts := fun _ => some 60 }

/-- Witness instantiating C5 with the spec scenario: balance 50,
60-cost action, InsufficientCredits(60, 50), wallet unchanged. -/
theorem reserve_insufficient_witness :
    reserve demoState3 0 "SIXTY_COST_ACTION" 0 1 =
      (demoState3, ReserveOut.insufficientCredits 60 50) :=
  (reserve_insufficient demoState3 0 "SIXTY_COST_ACTION" 0 1 60 rfl rfl).1
    (by decide)

/-! ## Reservation creation defaults -/

/-- C7: a successful reserve inserts its reservation with the schema
defaults: status held and expires_at equal to creation time plus the
20-minute TTL. -/
theorem reserve_creates_held (s : SrvState) (iden : Nat) (action : String)
    (now rid : Nat) (cost : Int)
    (hc : s.actionCosts action = some cost)
    (hfresh : s.reservations.lookup rid = none)
    (hge : ¬ availableOf (s.wallets iden) < cost) :
    (reserve s iden action now rid).1.reservations.lookup rid =
      some (newHeldReservation iden action cost now) ∧
    (newHeldReservation iden action cost now).status = ResStatus.held ∧
    (newHeldReservation iden action cost now).expiresAt =
      (newHeldReservation iden action cost now).createdAt + 20 * 60 := by
  refine ⟨?_, rfl, rfl⟩
  simp only [reserve, hc, hfresh]
  rw [if_neg hge]
  show (s.reservations ++ [(rid, newHeldReservation iden action cost now)]).lookup rid = _
  rw [lookup_append_right _ hfresh]
  simp [List.lookup]

/-- Demo store with a 100-credit wallet and 20-credit costs. -/
def demoState5 : SrvState :=
  { wallets := fun _ => ⟨100, 0⟩, reservations := [], purchases := [],
    ledger := [], actionCosts := fun _ => some 20 }

/-- Witness instantiating C7 on a concrete successful reserve. -/
theorem reserve_creates_held_witness :
    (reserve demoState5 0 "MESHY_TEXT_TO_3D" 1000 7).1.reservations.lookup 7 =
      some (newHeldReservation 0 "MESHY_TEXT_TO_3D" 20 1000) ∧
    (newHeldReservation 0 "MESHY_TEXT_TO_3D" 20 1000).status = ResStatus.held :=
  ⟨(reserve_creates_held demoState5 0 "MESHY_TEXT_TO_3D" 1000 7 20 rfl rfl
      (by decide)).1,
    (reserve_creates_held demoState5 0 "MESHY_TEXT_TO_3D" 1000 7 20 rfl rfl
      (by decide)).2.1⟩

/-! ## The reservation status state machine -/

/-- Per-id transition soundness from one reservation table to another:
ids not present before can only appear as held, and an id present
before keeps its row unless the row was held and moved to a terminal
status. -/
def resTransOk (rs rs' : List (Nat × SrvReservation)) (rid : Nat) : Prop :=
  (rs.lookup rid = none →
    ∀ r', rs'.lookup rid = some r' → r'.status = ResStatus.held) ∧
  (∀ r, rs.lookup rid = some r →
    ∃ r', rs'.lookup rid = some r' ∧
      (r' = r ∨ (r.status = ResStatus.held ∧
        (r'.status = ResStatus.captured ∨ r'.status = ResStatus.released ∨
          r'.status = ResStatus.expired))))

theorem resTransOk_refl (rs : List (Nat × SrvReservation)) (rid : Nat) :
    resTransOk rs rs rid := by
  constructor
  · intro hnone r' hr'
    rw [hnone] at hr'
    cases hr'
  · intro r hr
    exact ⟨r, hr, Or.inl rfl⟩

/-- Evolution relation of the expiry sweep: no id is created or
removed, and the only change of a row is held to expired. -/
def resEvolves (rs rs' : List (Nat × SrvReservation)) : Prop :=
  ∀ rid, (rs.lookup rid = none → rs'.lookup rid = none) ∧
    (∀ r, rs.lookup rid = some r →
      rs'.lookup rid = some r ∨
        (r.status = ResStatus.held ∧
          rs'.lookup rid = some { r with status := ResStatus.expired }))

theorem resEvolves_refl (rs : List (Nat × SrvReservation)) : resEvolves rs rs :=
  fun _ => ⟨fun h => h, fun _ hr => Or.inl hr⟩

theorem resEvolves_trans (a b c : List (Nat × SrvReservation))
    (h1 : resEvolves a b) (h2 : resEvolves b c) : resEvolves a c := by
  intro rid
  obtain ⟨h1n, h1s⟩ := h1 rid
  obtain ⟨h2n, h2s⟩ := h2 rid
  constructor
  · intro hn
    exact h2n (h1n hn)
  · intro r hr
    rcases h1s r hr with hb | ⟨hheld, hb⟩
    · exact h2s r hb
    · rcases h2s _ hb with hc | ⟨hexp, hc⟩
      · exact Or.inr ⟨hheld, hc⟩
      · exact absurd hexp (by simp)

/-- The per-row sweep step only turns held rows into expired rows. -/
theorem expireOne_resEvolves (now : Nat) (s : SrvState) (rid0 : Nat) :
    resEvolves s.reservations (expireOne now s rid0).reservations := by
  unfold expireOne
  split
  · exact resEvolves_refl s.reservations
  · rename_i r0 heq
    split
    · rename_i hcond
      intro rid
      by_cases hrr : rid = rid0
      · subst hrr
        constructor
        · intro hn
          rw [hn] at heq
          cases heq
        · intro r hr
          rw [heq] at hr
          injection hr with hr
          subst hr
          refine Or.inr ⟨hcond.1, ?_⟩
          rw [lookup_setReservation_self, heq]
          rfl
      · constructor
        · intro hn
          rw [lookup_setReservation_other _ _ _ _ hrr]
          exact hn
        · intro r hr
          rw [lookup_setReservation_other _ _ _ _ hrr]
          exact Or.inl hr
    · exact resEvolves_refl s.reservations

/-- The expiry sweep only turns held rows into expired rows. -/
theorem sweepExpired_resEvolves (s : SrvState) (now : Nat) :
    resEvolves s.reservations (sweepExpired s now).reservations :=
  foldl_rel (fun a b : SrvState => resEvolves a.reservations b.reservations)
    (fun st => resEvolves_refl st.reservations)
    (fun a b c h1 h2 => resEvolves_trans a.reservations b.reservations
      c.reservations h1 h2)
    (expireOne now) (fun st rid => expireOne_resEvolves now st rid)
    (s.reservations.map Prod.fst) s

theorem resTransOk_of_evolves (rs rs' : List (Nat × SrvReservation))
    (rid : Nat) (h : resEvolves rs rs') : resTransOk rs rs' rid := by
  obtain ⟨hn, hs⟩ := h rid
  constructor
  · intro hnone r' hr'
    rw [hn hnone] at hr'
    cases hr'
  · intro r hr
    rcases hs r hr with h1 | ⟨hheld, h2⟩
    · exact ⟨r, h1, Or.inl rfl⟩
    · exact ⟨{ r with status := ResStatus.expired }, h2,
        Or.inr ⟨hheld, Or.inr (Or.inr rfl)⟩⟩

/-- The reservations table after finalize is unchanged. -/
theorem finalize_reservations (s : SrvState) (prov ppid : String) :
    (finalize s prov ppid).1.reservations = s.reservations := by
  unfold finalize
  split
  · rfl
  · split
    · rfl
    · rfl

/-- The reservations table after reserve is unchanged or extended by
one fresh held row. -/
theorem reserve_reservations (s : SrvState) (i : Nat) (ac : String)
    (now rid0 : Nat) :
    (reserve s i ac now rid0).1.reservations = s.reservations ∨
    (∃ cost, s.reservations.lookup rid0 = none ∧
      (reserve s i ac now rid0).1.reservations =
        s.reservations ++ [(rid0, newHeldReservation i ac cost now)]) := by
  unfold reserve
  split
  · exact Or.inl rfl
  · split
    · exact Or.inl rfl
    · split
      · exact Or.inl rfl
      · exact Or.inr ⟨_, by assumption, rfl⟩

/-- The reservations table after capture is unchanged or has the
captured row replace its held original. -/
theorem capture_reservations (s : SrvState) (rid0 : Nat) :
    (capture s rid0).1.reservations = s.reservations ∨
    (∃ r0, s.reservations.lookup rid0 = some r0 ∧
      r0.status = ResStatus.held ∧
      (capture s rid0).1.reservations =
        setReservation s.reservations rid0
          { r0 with status := ResStatus.captured }) := by
  unfold capture
  split
  · exact Or.inl rfl
  · split
    · exact Or.inr ⟨_, by assumption, by assumption, rfl⟩
    · exact Or.inl rfl
    · exact Or.inl rfl

/-- The reservations table after release is unchanged or has the
released row replace its held original. -/
theorem release_reservations (s : SrvState) (rid0 : Nat) :
    (release s rid0).1.reservations = s.reservations ∨
    (∃ r0, s.reservations.lookup rid0 = some r0 ∧
      r0.status = ResStatus.held ∧
      (release s rid0).1.reservations =
        setReservation s.reservations rid0
          { r0 with status := ResStatus.released }) := by
  unfold release
  split
  · exact Or.inl rfl
  · split
    · exact Or.inr ⟨_, by assumption, by assumption, rfl⟩
    · exact Or.inl rfl
    · exact Or.inl rfl

/-- An updated table whose changed row went from held to a terminal
status satisfies the transition soundness at every id. -/
theorem resTransOk_setTerminal (rs : List (Nat × SrvReservation))
    (rid0 : Nat) (r0 : SrvReservation) (stNew : ResStatus)
    (hr0 : rs.lookup rid0 = some r0) (hheld : r0.status = ResStatus.held)
    (hterm : stNew = ResStatus.captured ∨ stNew = ResStatus.released ∨
      stNew = ResStatus.expired) (rid : Nat) :
    resTransOk rs (setReservation rs rid0 { r0 with status := stNew }) rid := by
  by_cases hrr : rid = rid0
  · subst hrr
    constructor
    · intro hn
      rw [hn] at hr0
      cases hr0
    · intro r hr
      rw [hr0] at hr
      injection hr with hr
      subst hr
      refine ⟨{ r0 with status := stNew }, ?_, Or.inr ⟨hheld, hterm⟩⟩
      rw [lookup_setReservation_self, hr0]
      rfl
  · constructor
    · intro hnone r' hr'
      rw [lookup_setReservation_other _ _ _ _ hrr, hnone] at hr'
      cases hr'
    · intro r hr
      rw [lookup_setReservation_other _ _ _ _ hrr]
      exact ⟨r, hr, Or.inl rfl⟩

/-- C6: reservation statuses form a one-way state machine across every
operation: an id absent before an operation can only appear as a held
row; an id present before either keeps its row unchanged, or the row
was held and moved to captured, released or expired; in particular a
row in a terminal status is never changed by any operation. -/
theorem reservation_transitions (s : SrvState) (op : Op) (rid : Nat) :
    resTransOk s.reservations (applyOp s op).reservations rid := by
  cases op with
  | grantOp i a => exact resTransOk_refl s.reservations rid
  | reserveOp i ac now rid0 =>
    show resTransOk s.reservations (reserve s i ac now rid0).1.reservations rid
    rcases reserve_reservations s i ac now rid0 with heq | ⟨cost, hfresh, heq⟩
    · rw [heq]
      exact resTransOk_refl s.reservations rid
    · rw [heq]
      constructor
      · intro hnone r' hr'
        rw [lookup_append_right _ hnone, List.lookup_cons] at hr'
        cases hbeq : rid == rid0 with
        | true =>
          rw [hbeq] at hr'
          injection hr' with hr'
          rw [hr'.symm]
          rfl
        | false =>
          rw [hbeq] at hr'
          simp at hr'
      · intro r hr
        exact ⟨r, lookup_append_left _ hr, Or.inl rfl⟩
  | captureOp rid0 =>
    show resTransOk s.reservations (capture s rid0).1.reservations rid
    rcases capture_reservations s rid0 with heq | ⟨r0, hr0, hheld, heq⟩
    · rw [heq]
      exact resTransOk_refl s.reservations rid
    · rw [heq]
      exact resTransOk_setTerminal s.reservations rid0 r0 ResStatus.captured
        hr0 hheld (Or.inl rfl) rid
  | releaseOp rid0 =>
    show resTransOk s.reservations (release s rid0).1.reservations rid
    rcases release_reservations s rid0 with heq | ⟨r0, hr0, hheld, heq⟩
    · rw [heq]
      exact resTransOk_refl s.reservations rid
    · rw [heq]
      exact resTransOk_setTerminal s.reservations rid0 r0 ResStatus.released
        hr0 hheld (Or.inr (Or.inl rfl)) rid
  | finalizeOp p pp =>
    show resTransOk s.reservations (finalize s p pp).1.reservations rid
    rw [finalize_reservations]
    exact resTransOk_refl s.reservations rid
  | sweepOp now =>
    exact resTransOk_of_evolves s.reservations
      (sweepExpired s now).reservations rid (sweepExpired_resEvolves s now)

/-- A held 20-credit reservation under id 1, for witnesses. -/
def demoHeld : SrvReservation :=
  { identityId := 0, actionCode := "MESHY_TEXT_TO_3D", costCredits := 20,
    status := ResStatus.held, createdAt := 0, expiresAt := 1200 }

/-- Demo store holding demoHeld under id 1. -/
def demoState4 : SrvState :=
  { wallets := fun _ => ⟨100, 20⟩, reservations := [(1, demoHeld)],
    purchases := [], ledger := [], actionCosts := fun _ => some 20 }

/-- Witness instantiating C6: capturing the held reservation of
demoState4 yields a row whose change is a permitted held-to-terminal
transition. -/
theorem reservation_transitions_witness :
    ∃ r', (applyOp demoState4 (Op.captureOp 1)).reservations.lookup 1 =
        some r' ∧
      (r' = demoHeld ∨ (demoHeld.status = ResStatus.held ∧
        (r'.status = ResStatus.captured ∨ r'.status = ResStatus.released ∨
          r'.status = ResStatus.expired))) :=
  (reservation_transitions demoState4 (Op.captureOp 1) 1).2 demoHeld rfl

/-! ## Invoicing service (backend/services/invoicing_service)

The service wraps every public entry point in a broad try/except that
logs and returns None, so that webhook callers can never see an
exception.  The embedding represents each effectful sub-step (database
calls, PDF generation, S3 upload, email) as an Except value supplied by
an environment, chains them exactly as the Python body does, and wraps
the body in the catch-all. -/

/-- An arbitrary Python exception value. -/
inductive PyExc
  | exc (msg : String)
deriving DecidableEq

/-- An invoices row as returned by INSERT ... RETURNING. -/
structure InvoiceRow where
  rowId : Nat
  invoiceNumber : String
deriving DecidableEq

/-- A receipts row as returned by INSERT ... RETURNING. -/
structure ReceiptRow where
  rowId : Nat
  receiptNumber : String
deriving DecidableEq

/-- Outcomes of the effectful steps inside
create_invoice_for_purchase: sequence number queries, the three
inserts (Option none models ON CONFLICT DO NOTHING returning no row)
and the commit; any of them may raise. -/
structure CreateInvoiceEnv where
  nextInvoiceNumber : Except PyExc String
  nextReceiptNumber : Except PyExc String
  insertInvoice : Except PyExc (Option InvoiceRow)
  insertItem : Except PyExc (Option Unit)
  insertReceipt : Except PyExc (Option ReceiptRow)
  commit : Except PyExc Unit

/-- The dictionary returned by create_invoice_for_purchase. -/
structure CreateResult where
  invoice : InvoiceRow
  receipt : Option ReceiptRow
  itemCount : Nat
deriving DecidableEq

/-- The try-block body of create_invoice_for_purchase: generate both
numbers, insert the invoice (returning None for the idempotent skip
when it already exists), insert the line item and the receipt, commit,
and return the rows. -/
def createInvoiceBody (env : CreateInvoiceEnv) :
    Except PyExc (Option CreateResult) := do
  let _invNum ← env.nextInvoiceNumber
  let _rcptNum ← env.nextReceiptNumber
  let inv? ← env.insertInvoice
  match inv? with
  | none => return none
  | some invoice =>
    let item? ← env.insertItem
    let receipt? ← env.insertReceipt
    let _ ← env.commit
    return some ⟨invoice, receipt?,
      match item? with | some _ => 1 | none => 0⟩

/-- create_invoice_for_purchase: the body wrapped in the broad
try/except that logs the error and returns None. -/
def create_invoice_for_purchase (env : CreateInvoiceEnv) :
    Except PyExc (Option CreateResult) :=
  match createInvoiceBody env with
  | Except.error _ => Except.ok none
  | Except.ok r => Except.ok r

/-- Mirrors the private upload helper: the S3 upload is attempted
inside its own try/except and a failure yields None instead of
raising. -/
def upload_pdf (attempt : Except PyExc String) : Option String :=
  match attempt with
  | Except.error _ => none
  | Except.ok url => some url

/-- Mirrors the private pdf-path update helpers: the UPDATE runs inside
its own try/except and a failure is only logged. -/
def update_pdf_path (attempt : Except PyExc Unit) : Unit :=
  match attempt with
  | Except.error _ => ()
  | Except.ok _ => ()

/-- Outcomes of the effectful steps of process_purchase_invoice beyond
the nested create call. -/
structure ProcessEnv where
  createEnv : CreateInvoiceEnv
  genInvoicePdf : Except PyExc (List Nat)
  genReceiptPdf : Except PyExc (List Nat)
  uploadInvoiceAttempt : Except PyExc String
  uploadReceiptAttempt : Except PyExc String
  updateInvoiceAttempt : Except PyExc Unit
  updateReceiptAttempt : Except PyExc Unit
  emailAttempt : Except PyExc Unit
  customerEmail : Option String

/-- The summary dictionary returned by process_purchase_invoice. -/
structure ProcessResult where
  invoiceId : Nat
  receiptId : Option Nat
  invoiceNumber : String
  receiptNumber : Option String
  invoicePdfUrl : Option String
  receiptPdfUrl : Option String
deriving DecidableEq

/-- The try-block body of process_purchase_invoice: create the rows
(idempotent), generate the PDFs, upload them with the self-catching
helpers, update the stored paths, send the email inside its own inner
try, and return the summary. -/
def processBody (env : ProcessEnv) : Except PyExc (Option ProcessResult) := do
  let result ← create_invoice_for_purchase env.createEnv
  match result with
  | none => return none
  | some r =>
    let _invoicePdf ← env.genInvoicePdf
    let receiptPdf? ← match r.receipt with
      | some _ => Except.map some env.genReceiptPdf
      | none => Except.ok (none : Option (List Nat))
    let invUrl := upload_pdf env.uploadInvoiceAttempt
    let _ := match invUrl with
      | some _ => update_pdf_path env.updateInvoiceAttempt
      | none => ()
    let rcptUrl := match receiptPdf?, r.receipt with
      | some _, some _ => upload_pdf env.uploadReceiptAttempt
      | _, _ => none
    let _ := match rcptUrl with
      | some _ => update_pdf_path env.updateReceiptAttempt
      | none => ()
    let _ := match env.customerEmail with
      | some _ =>
        match env.emailAttempt with
        | Except.error _ => ()
        | Except.ok _ => ()
      | none => ()
    return some ⟨r.invoice.rowId, r.receipt.map (fun rc => rc.rowId),
      r.invoice.invoiceNumber, r.receipt.map (fun rc => rc.receiptNumber),
      invUrl, rcptUrl⟩

/-- process_purchase_invoice: the pipeline body wrapped in the broad
try/except that logs the error and returns None. -/
def process_purchase_invoice (env : ProcessEnv) :
    Except PyExc (Option ProcessResult) :=
  match processBody env with
  | Except.error _ => Except.ok none
  | Except.ok r => Except.ok r

/-- C9: the invoicing entry points never propagate an exception: for
every combination of outcomes of their effectful sub-steps, both
create_invoice_for_purchase and process_purchase_invoice return a
result (Except.ok), carrying either a summary or none; no environment
makes them return an error. -/
theorem invoicing_never_throws (e : CreateInvoiceEnv) (env : ProcessEnv) :
    (∃ r, create_invoice_for_purchase e = Except.ok r) ∧
    (∃ r, process_purchase_invoice env = Except.ok r) := by
  constructor
  · unfold create_invoice_for_purchase
    cases createInvoiceBody e with
    | error _ => exact ⟨none, rfl⟩
    | ok r => exact ⟨r, rfl⟩
  · unfold process_purchase_invoice
    cases processBody env with
    | error _ => exact ⟨none, rfl⟩
    | ok r => exact ⟨r, rfl⟩
